import Mathlib

/-!
# Tiny web server (`tiny/tiny.c`): request handling

A shallow embedding of the request pipeline of `tiny.c` and the properties of
its specification.

Modelling conventions.

* A C string is the list of the characters stored before its terminating NUL.
* The sizes `MAXLINE` and `MAXBUF` of the character arrays are declared in
  `csapp.h`, which is not among the sources; they are parameters. The arrays
  `body[MAXBUF]` and `buf[MAXLINE]` of `clienterror`, which hold text of the
  request, have their capacity: a `sprintf` whose text and terminating NUL do
  not fit writes past the end of the array, and the behaviour of the call is
  undefined from there on. The other arrays are taken to hold what is written
  to them.
* `sprintf(dst, fmt, args...)` stores the formatted text of its arguments as
  they are when the call is made, so `sprintf(buf, "%s...", buf)` appends to
  `buf`.
* Calls that leave the process (socket reads and writes, `stat`, `open`,
  `mmap`, `fork`, ...) are recorded in a trace of events, in program order.
  Console output (`printf`) is not recorded.
-/

namespace Tiny

/-! ## C strings and the library functions used by `tiny.c` -/

/-- A C string, as the characters before the terminating NUL. -/
abbrev CStr := List Char

/-- The NUL character. -/
def NUL : Char := Char.ofNat 0

/-- The C string held by an array of bytes: everything before the first NUL. -/
def cstr (bytes : List Char) : CStr := bytes.takeWhile (fun c => c != NUL)

/-- The function `strstr(haystack, needle)`: offset of the first occurrence of
`needle` in `haystack`, `none` for a null result. -/
def strstr : CStr → CStr → Option Nat
  | [], needle => if needle.isEmpty then some 0 else none
  | c :: t, needle =>
    if needle.isPrefixOf (c :: t) then some 0 else (strstr t needle).map (fun i => i + 1)

/-- The function `index(s, c)`: offset of the first occurrence of the
character `c` in `s`, `none` for a null result. -/
def index : CStr → Char → Option Nat
  | [], _ => none
  | a :: t, c => if a = c then some 0 else (index t c).map (fun i => i + 1)

/-- The function `strcpy(dst, src)`: the new contents of `dst`. -/
def strcpy (src : CStr) : CStr := src

/-- The function `strcat(dst, src)`: the new contents of `dst`. -/
def strcat (dst src : CStr) : CStr := dst ++ src

/-- The byte `s[strlen(s)-1]`. For the empty string the index wraps around to
the byte stored just in front of the array, `before`. -/
def lastByte (before : Char) (s : CStr) : Char :=
  match s.getLast? with
  | some c => c
  | none => before

/-! ## `parse_uri` -/

/-- What `parse_uri` leaves behind: its return value, the arrays `filename`
and `cgiargs` it fills, and the `uri` array, which it may overwrite. -/
structure Parsed where
  ret : Int
  uri : CStr
  filename : CStr
  cgiargs : CStr
  deriving DecidableEq

/-- The function `int parse_uri(char *uri, char *filename, char *cgiargs)`.
`before` is the byte in front of the `uri` array, read only when `uri` is
empty. -/
def parse_uri (before : Char) (uri : CStr) : Parsed :=
  match strstr uri "cgi-bin".toList with
  | none =>
    let cgiargs := strcpy "".toList
    let filename := strcpy ".".toList
    let filename := strcat filename uri
    let filename :=
      if lastByte before uri = '/' then strcat filename "home.html".toList else filename
    { ret := 1, uri := uri, filename := filename, cgiargs := cgiargs }
  | some _ =>
    let ptr := index uri '?'
    let cgiargs :=
      match ptr with
      | some i => strcpy (uri.drop (i + 1))
      | none => strcpy "".toList
    let uri :=
      match ptr with
      | some i => uri.take i
      | none => uri
    let filename := strcpy ".".toList
    let filename := strcat filename uri
    { ret := 0, uri := uri, filename := filename, cgiargs := cgiargs }

/-! ## Formatted output and integer conversions -/

/-- Conversion of an integer value to the 32-bit `int`. -/
def toInt32 (x : Int) : Int := (x + 2 ^ 31) % 2 ^ 32 - 2 ^ 31

/-- Conversion of an integer value to the 64-bit `size_t`. -/
def toSizeT (x : Int) : Nat := (x % 2 ^ 64).toNat

/-- The function `strlen(s)`. -/
def strlen (s : CStr) : Nat := s.length

/-- The text printed for a `%d` conversion. -/
def fmtInt (n : Int) : CStr :=
  if n < 0 then '-' :: Nat.toDigits 10 n.natAbs else Nat.toDigits 10 n.toNat

/-- An argument of `sprintf`: a string for `%s`, an `int` for `%d`. -/
inductive Arg where
  | s (v : CStr)
  | d (v : Int)

/-- The text produced by a format with the conversions `%s` and `%d`;
`pending` is set right after a `%`. -/
def sprintfAux : Bool → List Char → List Arg → CStr
  | _, [], _ => []
  | false, c :: rest, args =>
    if c = '%' then sprintfAux true rest args else c :: sprintfAux false rest args
  | true, c :: rest, args =>
    if c = 's' then
      match args with
      | Arg.s v :: more => v ++ sprintfAux false rest more
      | _ => sprintfAux false rest args
    else if c = 'd' then
      match args with
      | Arg.d v :: more => fmtInt v ++ sprintfAux false rest more
      | _ => sprintfAux false rest args
    else c :: sprintfAux false rest args

/-- The function `sprintf(dst, fmt, args...)`: the new contents of `dst`. -/
def sprintf (fmt : String) (args : List Arg) : CStr := sprintfAux false fmt.toList args

/-! ## The trace of a request -/

/-- The calls that leave the process, as `doit` and its callees make them. -/
inductive Event where
  /-- The call `Rio_readlineb(&rio, buf, MAXLINE)` -/
  | readline
  /-- The call `Rio_writen(fd, buf, strlen(buf))` -/
  | writen (data : CStr)
  /-- The call `stat(filename, &sbuf)` -/
  | stat (path : CStr)
  /-- The call `Open(filename, O_RDONLY, 0)` -/
  | openRd (path : CStr)
  /-- The call `Mmap(0, filesize, PROT_READ, MAP_PRIVATE, srcfd, 0)` -/
  | mmap (length : Nat)
  /-- The call `Close(srcfd)` -/
  | close
  /-- The call `Rio_writen(fd, srcp, filesize)`, `srcp` being the mapped file -/
  | writenMapped (n : Nat)
  /-- The call `Munmap(srcp, filesize)` -/
  | munmap (length : Nat)
  /-- The call `Fork()`; the three events that follow it happen in the child -/
  | fork
  /-- The call `setenv(name, value, overwrite)` -/
  | setenv (name value : CStr) (overwrite : Int)
  /-- The call `Dup2(fd, STDOUT_FILENO)` -/
  | dup2Stdout
  /-- The call `Execve(filename, emptylist, environ)` -/
  | execve (path : CStr)
  /-- The call `Wait(NULL)` -/
  | wait
  deriving DecidableEq

/-- The trace of a call, whether the call returns, and whether its behaviour
became undefined (after the last event of the trace). -/
structure Outcome where
  events : List Event
  returns : Bool
  undefined : Bool := false
  deriving DecidableEq

/-- The outcome of a call that, after `events`, writes past the end of an
array. -/
def overflow (events : List Event) : Outcome :=
  { events := events, returns := false, undefined := true }

/-- The outcome of a function that makes the calls `pre` and ends with a call
of outcome `r`. -/
def thenCall (pre : List Event) (r : Outcome) : Outcome :=
  { events := pre ++ r.events, returns := r.returns, undefined := r.undefined }

/-! ## `clienterror` -/

/-- The call `sprintf(dst, fmt, args...)` on an array `dst` of `size` bytes:
the new contents of `dst`, `none` when the text and its terminating NUL do not
fit the array. -/
def sprintf_in (size : Nat) (fmt : String) (args : List Arg) : Option CStr :=
  if (sprintf fmt args).length < size then some (sprintf fmt args) else none

/-- The array `body[MAXBUF]` of `clienterror` once its five `sprintf` calls
are done, `none` when one of them writes past its end. -/
def clienterror_body (MAXBUF : Nat) (cause errnum shortmsg longmsg : CStr) : Option CStr :=
  match sprintf_in MAXBUF "<html><title>Tiny Error</title>" [] with
  | none => none
  | some body =>
  match sprintf_in MAXBUF ("%s<body bgcolor=" ++ "ffffff" ++ ">\r\n") [Arg.s body] with
  | none => none
  | some body =>
  match sprintf_in MAXBUF "%s%s: %s\r\n" [Arg.s body, Arg.s errnum, Arg.s shortmsg] with
  | none => none
  | some body =>
  match sprintf_in MAXBUF "%s<p>%s: %s\r\n" [Arg.s body, Arg.s longmsg, Arg.s cause] with
  | none => none
  | some body =>
  sprintf_in MAXBUF "%s<hr><em>The Tiny Web server</em>\r\n" [Arg.s body]

/-- The function
`void clienterror(int fd, char *cause, char *errnum, char *shortmsg, char *longmsg)`,
with `char buf[MAXLINE], body[MAXBUF]`. -/
def clienterror (MAXLINE MAXBUF : Nat) (cause errnum shortmsg longmsg : CStr) : Outcome :=
  match clienterror_body MAXBUF cause errnum shortmsg longmsg with
  | none => overflow []
  | some body =>
  match sprintf_in MAXLINE "HTTP/1.0 %s %s\r\n" [Arg.s errnum, Arg.s shortmsg] with
  | none => overflow []
  | some buf1 =>
  match sprintf_in MAXLINE "Content-type: text/html\r\n" [] with
  | none => overflow [Event.writen buf1]
  | some buf2 =>
  match sprintf_in MAXLINE "Content-length: %d\r\n\r\n" [Arg.d (toInt32 (strlen body))] with
  | none => overflow [Event.writen buf1, Event.writen buf2]
  | some buf3 =>
    { events := [Event.writen buf1, Event.writen buf2, Event.writen buf3, Event.writen body],
      returns := true }

/-! ## Static and dynamic content -/

/-- The function `void get_filetype(char *filename, char *filetype)`: the new contents of
`filetype`. -/
def get_filetype (filename : CStr) : CStr :=
  if (strstr filename ".html".toList).isSome then strcpy "text/html".toList
  else if (strstr filename ".gif".toList).isSome then strcpy "image/gif".toList
  else if (strstr filename ".png".toList).isSome then strcpy "image/png".toList
  else if (strstr filename ".jpg".toList).isSome then strcpy "image/jpeg".toList
  else strcpy "text/plain".toList

/-- The array `buf` of `serve_static` once its five `sprintf` calls are done. -/
def serve_static_header (filename : CStr) (filesize : Int) : CStr :=
  let filetype := get_filetype filename
  let buf := sprintf "HTTP/1.0 200 OK\r\n" []
  let buf := sprintf "%sServer: Tiny Web Server\r\n" [Arg.s buf]
  let buf := sprintf "%sConnection: close\r\n" [Arg.s buf]
  let buf := sprintf "%sContent-length: %d\r\n" [Arg.s buf, Arg.d filesize]
  let buf := sprintf "%sContent-type: %s\r\n\r\n" [Arg.s buf, Arg.s filetype]
  buf

/-- The function `void serve_static(int fd, char *filename, int filesize)`; `filesize` is
the value of the `int` parameter. -/
def serve_static (filename : CStr) (filesize : Int) : List Event :=
  [Event.writen (serve_static_header filename filesize),
   Event.openRd filename,
   Event.mmap (toSizeT filesize),
   Event.close,
   Event.writenMapped (toSizeT filesize),
   Event.munmap (toSizeT filesize)]

/-- The function `void serve_dynamic(int fd, char *filename, char *cgiargs)`. -/
def serve_dynamic (filename cgiargs : CStr) : List Event :=
  [Event.writen (sprintf "HTTP/1.0 200 OK\r\n" []),
   Event.writen (sprintf "Server: Tiny Web Server\r\n" []),
   Event.fork,
   Event.setenv "QUERY_STRING".toList cgiargs 1,
   Event.dup2Stdout,
   Event.execve filename,
   Event.wait]

/-! ## Reading the request -/

/-- The function `isspace(c)` in the C locale. -/
def isspace (c : Char) : Bool := c.toNat = 32 || (9 ≤ c.toNat && c.toNat ≤ 13)

/-- The function `tolower(c)` in the C locale, as a byte value. -/
def tolower (c : Char) : Int := (c.toLower.toNat : Int)

/-- The function `strcmp(s1, s2)`: the difference of the first pair of bytes
that differ, the terminating NUL counting as 0. -/
def strcmp : CStr → CStr → Int
  | [], [] => 0
  | [], b :: _ => 0 - (b.toNat : Int)
  | a :: _, [] => (a.toNat : Int)
  | a :: s1, b :: s2 => if a = b then strcmp s1 s2 else (a.toNat : Int) - (b.toNat : Int)

/-- The function `strcasecmp(s1, s2)`: as `strcmp`, on the lower-cased bytes. -/
def strcasecmp : CStr → CStr → Int
  | [], [] => 0
  | [], b :: _ => 0 - tolower b
  | a :: _, [] => tolower a
  | a :: s1, b :: s2 =>
    if tolower a = tolower b then strcasecmp s1 s2 else tolower a - tolower b

/-- The three arrays filled by `sscanf(buf, "%s %s %s", method, uri, version)`. -/
structure RequestLine where
  method : CStr
  uri : CStr
  version : CStr
  deriving DecidableEq

/-- The call `sscanf(buf, "%s %s %s", method, uri, version)`. Each `%s` skips
white space and stores the characters up to the next white space; when the
input is used up before a conversion, that array and the later ones keep the
contents they had (`method0`, `uri0`, `version0`). -/
def sscanf3 (buf method0 uri0 version0 : CStr) : RequestLine :=
  let in1 := buf.dropWhile isspace
  if in1.isEmpty then { method := method0, uri := uri0, version := version0 } else
  let method := in1.takeWhile (fun c => !isspace c)
  let in2 := (in1.dropWhile (fun c => !isspace c)).dropWhile isspace
  if in2.isEmpty then { method := method, uri := uri0, version := version0 } else
  let uri := in2.takeWhile (fun c => !isspace c)
  let in3 := (in2.dropWhile (fun c => !isspace c)).dropWhile isspace
  if in3.isEmpty then { method := method, uri := uri, version := version0 } else
  let version := in3.takeWhile (fun c => !isspace c)
  { method := method, uri := uri, version := version }

/-- Modelled from the spec: `Rio_readlineb` of `csapp.c`, which is not among
the sources (the spec takes the read-line primitive to be reliable). The
connection is the list of the lines its successive calls deliver; a call
stores the next line in `buf` and, at the end of the input, leaves `buf` as it
is. Returns the string then held by `buf` and the rest of the connection. -/
def Rio_readlineb (conn : List (List Char)) (buf : CStr) : CStr × List (List Char) :=
  match conn with
  | [] => (buf, [])
  | line :: rest => (cstr line, rest)

/-- The loop `while (strcmp(buf, "\r\n")) Rio_readlineb(rp, buf, MAXLINE);` of
`read_requesthdrs`: the reads it makes and whether it ends. At the end of the
input `buf` no longer changes, so the loop ends only if `buf` is the empty
line already. -/
def skip_headers : List (List Char) → CStr → List Event × Bool
  | [], buf => ([], strcmp buf "\r\n".toList == 0)
  | line :: rest, buf =>
    if strcmp buf "\r\n".toList ≠ 0 then
      let r := skip_headers rest (Rio_readlineb (line :: rest) buf).1
      (Event.readline :: r.1, r.2)
    else ([], true)

/-- The function `void read_requesthdrs(rio_t *rp)`: the reads it makes and
whether it returns. `buf0` is what its local array `buf` holds on entry. -/
def read_requesthdrs (conn : List (List Char)) (buf0 : CStr) : List Event × Bool :=
  let r := Rio_readlineb conn buf0
  let l := skip_headers r.2 r.1
  (Event.readline :: l.1, l.2)

/-! ## File metadata -/

/-- The fields of `struct stat` that `doit` reads; `st_size` is a 64-bit
`off_t`. -/
structure Stat where
  st_mode : Nat
  st_size : Int
  deriving DecidableEq

/-- The macro `S_ISREG(m)`: `(m & S_IFMT) == S_IFREG`. -/
def S_ISREG (m : Nat) : Bool := m &&& 0o170000 == 0o100000

/-- The constant `S_IRUSR`, the owner-read bit. -/
def S_IRUSR : Nat := 0o400

/-- The constant `S_IXUSR`, the owner-execute bit. -/
def S_IXUSR : Nat := 0o100

/-! ## `doit` -/

/-- What the local arrays of `doit` and `read_requesthdrs` hold when the
functions are entered; none of them is initialised by the code. -/
structure Frame where
  buf : List Char
  method : List Char
  uri : List Char
  version : List Char
  /-- the byte in front of `uri` -/
  before : Char
  /-- the array `buf` of `read_requesthdrs` -/
  hdrbuf : List Char

/-- The function `void doit(int fd)`. `fr` is what its local arrays hold on
entry, `conn` what the connection delivers, `stat` the result of
`stat(filename, &sbuf)` on the file system (`none` for a negative return
value). When the header loop does not end, the trace stops at the last line
read and `returns` is `false`. -/
def doit (MAXLINE MAXBUF : Nat) (fr : Frame) (conn : List (List Char))
    (stat : CStr → Option Stat) : Outcome :=
  let r := Rio_readlineb conn (cstr fr.buf)
  let buf := r.1
  let rl := sscanf3 buf (cstr fr.method) (cstr fr.uri) (cstr fr.version)
  if strcasecmp rl.method "GET".toList ≠ 0 then
    thenCall [Event.readline]
      (clienterror MAXLINE MAXBUF rl.method "501".toList "Not implemented".toList
        "Tiny does not implement this method".toList)
  else
    let hd := read_requesthdrs r.2 (cstr fr.hdrbuf)
    if !hd.2 then { events := Event.readline :: hd.1, returns := false } else
    let p := parse_uri fr.before rl.uri
    let is_static := p.ret
    let filename := p.filename
    let cgiargs := p.cgiargs
    match stat filename with
    | none =>
      thenCall (Event.readline :: hd.1 ++ [Event.stat filename])
        (clienterror MAXLINE MAXBUF filename "404".toList "Not found".toList
          "Tiny couldn't find this file".toList)
    | some sbuf =>
      if is_static ≠ 0 then
        if !(S_ISREG sbuf.st_mode) || !(S_IRUSR &&& sbuf.st_mode != 0) then
          thenCall (Event.readline :: hd.1 ++ [Event.stat filename])
            (clienterror MAXLINE MAXBUF filename "403".toList "Forbidden".toList
              "Tiny couldn't read the file".toList)
        else
          { events := Event.readline :: hd.1 ++ Event.stat filename ::
              serve_static filename (toInt32 sbuf.st_size),
            returns := true }
      else
        if !(S_ISREG sbuf.st_mode) || !(S_IXUSR &&& sbuf.st_mode != 0) then
          thenCall (Event.readline :: hd.1 ++ [Event.stat filename])
            (clienterror MAXLINE MAXBUF filename "403".toList "Forbidden".toList
              "Tiny couldn't run the CGI program".toList)
        else
          { events := Event.readline :: hd.1 ++ Event.stat filename ::
              serve_dynamic filename cgiargs,
            returns := true }

/-! ## Notions of the specification -/

/-- The marker of dynamic content. -/
def marker : CStr := "cgi-bin".toList

/-- The target with its first `?` and everything after it removed. -/
def pathWithoutQuery (target : CStr) : CStr := target.takeWhile (fun c => c != '?')

/-- The file name that "`.` followed by the path without its query, with
`home.html` appended when the target is static and ends in `/`" describes. -/
def queryFreeFilename (target : CStr) : CStr :=
  '.' :: pathWithoutQuery target ++
    (if ¬ marker <:+: target ∧ target.getLast? = some '/' then "home.html".toList else [])

/-- The page of the specification's template: title, body tag with a
background colour, `<errnum>: <shortmsg>`, the paragraph `<longmsg>: <cause>`,
a horizontal rule and the attribution line. -/
def errorPage (cause errnum shortmsg longmsg : CStr) : CStr :=
  "<html><title>Tiny Error</title>".toList ++
  "<body bgcolor=ffffff>\r\n".toList ++
  errnum ++ ": ".toList ++ shortmsg ++ "\r\n".toList ++
  "<p>".toList ++ longmsg ++ ": ".toList ++ cause ++ "\r\n".toList ++
  "<hr><em>The Tiny Web server</em>\r\n".toList

/-- The request line as `doit` scans it from the first line of the
connection. -/
def requestLine (fr : Frame) (conn : List (List Char)) : RequestLine :=
  sscanf3 (Rio_readlineb conn (cstr fr.buf)).1 (cstr fr.method) (cstr fr.uri) (cstr fr.version)

/-- The target of the request as `parse_uri` resolves it. -/
def resolved (fr : Frame) (conn : List (List Char)) : Parsed :=
  parse_uri fr.before (requestLine fr conn).uri

/-- The number of lines up to and including the first empty line `\r\n`. -/
def headerLines (conn : List (List Char)) : Nat :=
  (conn.takeWhile (fun l => cstr l != "\r\n".toList)).length + 1

/-- A frame whose arrays hold empty strings. -/
def emptyFrame : Frame :=
  { buf := [], method := [], uri := [], version := [], before := ' ', hdrbuf := [] }

/-- A file system with a readable page, a page without the owner-read bit, an
executable program and a program without the owner-execute bit. -/
def sampleStat : CStr → Option Stat := fun f =>
  if f = "./home.html".toList then some { st_mode := 0o100644, st_size := 120 }
  else if f = "./secret.html".toList then some { st_mode := 0o100200, st_size := 10 }
  else if f = "./cgi-bin/adder".toList then some { st_mode := 0o100755, st_size := 9000 }
  else if f = "./cgi-bin/data".toList then some { st_mode := 0o100644, st_size := 10 }
  else none

/-- The content type that the ordered suffix table of the specification gives
a file name: the type of the first suffix of the table that the name ends in,
`text/plain` when it ends in none. -/
def suffixType (filename : CStr) : CStr :=
  if ".html".toList <:+ filename then "text/html".toList
  else if ".gif".toList <:+ filename then "image/gif".toList
  else if ".png".toList <:+ filename then "image/png".toList
  else if ".jpg".toList <:+ filename then "image/jpeg".toList
  else "text/plain".toList

/-! ## Lemmas on the string functions -/

theorem strstr_isSome_iff (h n : CStr) : (strstr h n).isSome = true ↔ n <:+: h := by
  induction h with
  | nil =>
    cases n <;> simp [strstr]
  | cons c t ih =>
    rw [List.infix_cons_iff]
    unfold strstr
    by_cases hp : n.isPrefixOf (c :: t) = true
    · simp only [hp, if_true, Option.isSome_some, true_iff]
      exact Or.inl (List.isPrefixOf_iff_prefix.mp hp)
    · simp only [hp, Bool.false_eq_true, if_false, Option.isSome_map', ih]
      constructor
      · exact Or.inr
      · rintro (h1 | h1)
        · exact absurd (List.isPrefixOf_iff_prefix.mpr h1) hp
        · exact h1

theorem strstr_eq_none_iff (h n : CStr) : strstr h n = none ↔ ¬ n <:+: h := by
  rw [← strstr_isSome_iff]
  cases strstr h n <;> simp

theorem index_eq_none_iff (s : CStr) (c : Char) : index s c = none ↔ c ∉ s := by
  induction s with
  | nil => simp [index]
  | cons a t ih =>
    unfold index
    by_cases hac : a = c
    · simp [hac]
    · simp [hac, ih, Ne.symm hac]

theorem index_append_cons (p q : CStr) (c : Char) (hp : c ∉ p) :
    index (p ++ c :: q) c = some p.length := by
  induction p with
  | nil => simp [index]
  | cons a t ih =>
    have hac : a ≠ c := fun h => hp (by simp [h])
    have ht : c ∉ t := fun h => hp (by simp [h])
    simp [index, hac, ih ht]

/-! ## Lemmas on `parse_uri` -/

theorem parse_uri_of_marker (before : Char) (uri : CStr) (h : marker <:+: uri) :
    parse_uri before uri =
      { ret := 0,
        uri := (match index uri '?' with | some i => uri.take i | none => uri),
        filename := '.' :: (match index uri '?' with | some i => uri.take i | none => uri),
        cgiargs := (match index uri '?' with | some i => uri.drop (i + 1) | none => []) } := by
  have hs : (strstr uri "cgi-bin".toList).isSome = true := (strstr_isSome_iff _ _).mpr h
  unfold parse_uri
  cases hstr : strstr uri "cgi-bin".toList with
  | none => rw [hstr] at hs; simp at hs
  | some k => cases hi : index uri '?' <;> simp [strcpy, strcat]

theorem parse_uri_of_no_marker (before : Char) (uri : CStr) (h : ¬ marker <:+: uri) :
    parse_uri before uri =
      { ret := 1, uri := uri,
        filename := '.' :: uri ++ (if lastByte before uri = '/' then "home.html".toList else []),
        cgiargs := [] } := by
  have hs : strstr uri "cgi-bin".toList = none := (strstr_eq_none_iff _ _).mpr h
  unfold parse_uri
  rw [hs]
  by_cases hl : lastByte before uri = '/' <;> simp [strcpy, strcat, hl]

theorem lastByte_of_ne_nil (before : Char) (s : CStr) (c : Char) (hs : s ≠ []) :
    lastByte before s = c ↔ s.getLast? = some c := by
  unfold lastByte
  cases hl : s.getLast? with
  | none => exact absurd (List.getLast?_eq_none_iff.mp hl) hs
  | some d => simp

theorem pathWithoutQuery_append (p q : CStr) (hp : '?' ∉ p) :
    pathWithoutQuery (p ++ '?' :: q) = p := by
  unfold pathWithoutQuery
  rw [List.takeWhile_append_of_pos]
  · simp
  · intro a ha
    have : a ≠ '?' := fun h => hp (h ▸ ha)
    simpa using this

theorem pathWithoutQuery_of_not_mem (u : CStr) (hu : '?' ∉ u) : pathWithoutQuery u = u := by
  unfold pathWithoutQuery
  rw [List.takeWhile_eq_self_iff]
  intro a ha
  have : a ≠ '?' := fun h => hu (h ▸ ha)
  simpa using this

theorem exists_split_of_mem (u : CStr) (c : Char) (h : c ∈ u) :
    ∃ p q, u = p ++ c :: q ∧ c ∉ p := by
  induction u with
  | nil => simp at h
  | cons a t ih =>
    by_cases hac : a = c
    · exact ⟨[], t, by simp [hac], by simp⟩
    · have ht : c ∈ t := by
        rcases List.mem_cons.mp h with h1 | h1
        · exact absurd h1.symm hac
        · exact h1
      obtain ⟨p, q, hpq, hp⟩ := ih ht
      refine ⟨a :: p, q, by simp [hpq], ?_⟩
      intro hmem
      rcases List.mem_cons.mp hmem with h1 | h1
      · exact hac h1.symm
      · exact hp h1

/-! ## `parse_uri`: classification and resolution -/

/-- C1. A target that contains the marker `cgi-bin` anywhere is classified as
dynamic (`parse_uri` returns 0); `cgiargs` is exactly what follows the first
`?` (empty when there is no `?`) and `filename` is `.` followed by the target
up to, and without, the first `?`. -/
theorem parse_uri_dynamic (before : Char) (uri : CStr) (h : "cgi-bin".toList <:+: uri) :
    (parse_uri before uri).ret = 0 ∧
    (∀ p q : CStr, uri = p ++ '?' :: q → '?' ∉ p →
      (parse_uri before uri).cgiargs = q ∧ (parse_uri before uri).filename = '.' :: p) ∧
    ('?' ∉ uri →
      (parse_uri before uri).cgiargs = [] ∧ (parse_uri before uri).filename = '.' :: uri) := by
  rw [parse_uri_of_marker before uri h]
  refine ⟨rfl, ?_, ?_⟩
  · intro p q hu hp
    subst hu
    simp [index_append_cons p q '?' hp]
  · intro hu
    simp [(index_eq_none_iff uri '?').mpr hu]

/-- The example of C1: `/cgi-bin/adder?15&20`. -/
theorem parse_uri_dynamic_witness :
    "cgi-bin".toList <:+: "/cgi-bin/adder?15&20".toList ∧
    (parse_uri ' ' "/cgi-bin/adder?15&20".toList).ret = 0 ∧
    (parse_uri ' ' "/cgi-bin/adder?15&20".toList).cgiargs = "15&20".toList ∧
    (parse_uri ' ' "/cgi-bin/adder?15&20".toList).filename = "./cgi-bin/adder".toList :=
  have h : "cgi-bin".toList <:+: "/cgi-bin/adder?15&20".toList :=
    ⟨"/".toList, "/adder?15&20".toList, by decide⟩
  ⟨h, (parse_uri_dynamic ' ' _ h).1,
    (parse_uri_dynamic ' ' _ h).2.1 "/cgi-bin/adder".toList "15&20".toList (by decide)
      (by decide)⟩

/-- C2. A target that does not contain the marker `cgi-bin` is classified as
static (`parse_uri` returns 1) and `cgiargs` is empty, whatever the target
contains. -/
theorem parse_uri_static (before : Char) (uri : CStr) (h : ¬ "cgi-bin".toList <:+: uri) :
    (parse_uri before uri).ret = 1 ∧ (parse_uri before uri).cgiargs = [] := by
  rw [parse_uri_of_no_marker before uri h]
  exact ⟨rfl, rfl⟩

/-- A static target with a `?`. -/
theorem parse_uri_static_witness :
    ¬ "cgi-bin".toList <:+: "/index.html?a=1".toList ∧
    (parse_uri ' ' "/index.html?a=1".toList).ret = 1 ∧
    (parse_uri ' ' "/index.html?a=1".toList).cgiargs = [] :=
  ⟨by decide, parse_uri_static ' ' "/index.html?a=1".toList (by decide)⟩

/-- C3, as stated, fails: for the static target `/a.html?x=1` the code keeps
the query in the file name, `./a.html?x=1`, where the claim has `./a.html`. -/
theorem parse_uri_filename_counterexample :
    "/a.html?x=1".toList ≠ [] ∧
    (parse_uri ' ' "/a.html?x=1".toList).ret = 1 ∧
    (parse_uri ' ' "/a.html?x=1".toList).filename = "./a.html?x=1".toList ∧
    queryFreeFilename "/a.html?x=1".toList = "./a.html".toList ∧
    (parse_uri ' ' "/a.html?x=1".toList).filename ≠ queryFreeFilename "/a.html?x=1".toList := by
  decide

/-- C3, amended. For a non-empty target: the file name of a dynamic target is
`.` followed by the target without its first `?` and what follows it; the
file name of a static target is `.` followed by the whole target, a `?` and
what follows it included, with `home.html` appended when the target ends in
`/`. For targets without a `?` this is the file name of the claim. -/
theorem parse_uri_filename (before : Char) (uri : CStr) (hne : uri ≠ []) :
    (marker <:+: uri → (parse_uri before uri).filename = '.' :: pathWithoutQuery uri) ∧
    (¬ marker <:+: uri →
      (parse_uri before uri).filename =
        '.' :: uri ++ (if uri.getLast? = some '/' then "home.html".toList else [])) ∧
    ('?' ∉ uri → (parse_uri before uri).filename = queryFreeFilename uri) := by
  have hdyn : marker <:+: uri →
      (parse_uri before uri).filename = '.' :: pathWithoutQuery uri := by
    intro h
    rw [parse_uri_of_marker before uri h]
    by_cases hq : '?' ∈ uri
    · obtain ⟨p, q, hu, hp⟩ := exists_split_of_mem uri '?' hq
      subst hu
      simp [index_append_cons p q '?' hp, pathWithoutQuery_append p q hp]
    · simp [(index_eq_none_iff uri '?').mpr hq, pathWithoutQuery_of_not_mem uri hq]
  have hsta : ¬ marker <:+: uri →
      (parse_uri before uri).filename =
        '.' :: uri ++ (if uri.getLast? = some '/' then "home.html".toList else []) := by
    intro h
    rw [parse_uri_of_no_marker before uri h]
    by_cases hl : uri.getLast? = some '/'
    · simp [hl, (lastByte_of_ne_nil before uri '/' hne).mpr hl]
    · have hl2 : ¬ lastByte before uri = '/' := fun hb =>
        hl ((lastByte_of_ne_nil before uri '/' hne).mp hb)
      simp [hl, hl2]
  refine ⟨hdyn, hsta, ?_⟩
  intro hq
  unfold queryFreeFilename
  by_cases hm : marker <:+: uri
  · rw [hdyn hm]
    simp [hm]
  · rw [hsta hm, pathWithoutQuery_of_not_mem uri hq]
    by_cases hl : uri.getLast? = some '/' <;> simp [hm, hl]

/-- The target `/` resolves to `./home.html`, a static target keeps its query,
a dynamic one loses it. -/
theorem parse_uri_filename_witness :
    (parse_uri ' ' "/".toList).filename = "./home.html".toList ∧
    (parse_uri ' ' "/a.html?x=1".toList).filename = "./a.html?x=1".toList ∧
    (parse_uri ' ' "/cgi-bin/adder?15&20".toList).filename = "./cgi-bin/adder".toList ∧
    (parse_uri ' ' "/dir/".toList).filename = queryFreeFilename "/dir/".toList :=
  ⟨(parse_uri_filename ' ' "/".toList (by decide)).2.1 (by decide),
   (parse_uri_filename ' ' "/a.html?x=1".toList (by decide)).2.1 (by decide),
   (parse_uri_filename ' ' "/cgi-bin/adder?15&20".toList (by decide)).1
     ⟨"/".toList, "/adder?15&20".toList, by decide⟩,
   (parse_uri_filename ' ' "/dir/".toList (by decide)).2.2 (by decide)⟩

/-- C10, as stated, fails: `parse_uri` cuts the array `uri` of the dynamic
target `/cgi-bin/adder?15&20` at the `?`, and a second call on the array
yields empty `cgiargs` where the first one yielded `15&20`. -/
theorem parse_uri_twice_counterexample :
    (parse_uri ' ' "/cgi-bin/adder?15&20".toList).uri = "/cgi-bin/adder".toList ∧
    (parse_uri ' ' "/cgi-bin/adder?15&20".toList).uri ≠ "/cgi-bin/adder?15&20".toList ∧
    (parse_uri ' ' "/cgi-bin/adder?15&20".toList).cgiargs = "15&20".toList ∧
    (parse_uri ' ' (parse_uri ' ' "/cgi-bin/adder?15&20".toList).uri).cgiargs = [] ∧
    (parse_uri ' ' (parse_uri ' ' "/cgi-bin/adder?15&20".toList).uri).cgiargs ≠
      (parse_uri ' ' "/cgi-bin/adder?15&20".toList).cgiargs := by
  decide

/-- C10, amended. `parse_uri` leaves the array `uri` unchanged when the target
is static or has no `?`, and a second call on the array then yields what the
first one did. For a dynamic target with a `?` it cuts `uri` at the first `?`;
a second call on the array, when the part left still contains the marker,
yields the same classification and file name and empty `cgiargs`. -/
theorem parse_uri_twice (before : Char) (uri : CStr) :
    ((¬ marker <:+: uri ∨ '?' ∉ uri) →
      (parse_uri before uri).uri = uri ∧
      parse_uri before (parse_uri before uri).uri = parse_uri before uri) ∧
    (marker <:+: uri → ∀ p q : CStr, uri = p ++ '?' :: q → '?' ∉ p →
      (parse_uri before uri).uri = p ∧
      (marker <:+: p →
        (parse_uri before (parse_uri before uri).uri).ret = (parse_uri before uri).ret ∧
        (parse_uri before (parse_uri before uri).uri).filename =
          (parse_uri before uri).filename ∧
        (parse_uri before (parse_uri before uri).uri).cgiargs = [])) := by
  constructor
  · intro h
    have hu : (parse_uri before uri).uri = uri := by
      by_cases hm : marker <:+: uri
      · have hq : '?' ∉ uri := h.resolve_left (fun hn => hn hm)
        rw [parse_uri_of_marker before uri hm]
        simp [(index_eq_none_iff uri '?').mpr hq]
      · rw [parse_uri_of_no_marker before uri hm]
    exact ⟨hu, by rw [hu]⟩
  · intro hm p q hpq hp
    have hu : (parse_uri before uri).uri = p := by
      rw [parse_uri_of_marker before uri hm]
      subst hpq
      simp [index_append_cons p q '?' hp]
    refine ⟨hu, ?_⟩
    intro hmp
    rw [hu, parse_uri_of_marker before p hmp, parse_uri_of_marker before uri hm]
    subst hpq
    simp [(index_eq_none_iff p '?').mpr hp, index_append_cons p q '?' hp]

/-- A static target with a `?` is left as it is; `/cgi-bin/adder?15&20` is cut
to `/cgi-bin/adder`. -/
theorem parse_uri_twice_witness :
    ((parse_uri ' ' "/a.html?x=1".toList).uri = "/a.html?x=1".toList ∧
      parse_uri ' ' (parse_uri ' ' "/a.html?x=1".toList).uri =
        parse_uri ' ' "/a.html?x=1".toList) ∧
    (parse_uri ' ' "/cgi-bin/adder?15&20".toList).uri = "/cgi-bin/adder".toList ∧
    (parse_uri ' ' (parse_uri ' ' "/cgi-bin/adder?15&20".toList).uri).ret =
      (parse_uri ' ' "/cgi-bin/adder?15&20".toList).ret ∧
    (parse_uri ' ' (parse_uri ' ' "/cgi-bin/adder?15&20".toList).uri).filename =
      (parse_uri ' ' "/cgi-bin/adder?15&20".toList).filename ∧
    (parse_uri ' ' (parse_uri ' ' "/cgi-bin/adder?15&20".toList).uri).cgiargs = [] :=
  have h := (parse_uri_twice ' ' "/cgi-bin/adder?15&20".toList).2
    ⟨"/".toList, "/adder?15&20".toList, by decide⟩
    "/cgi-bin/adder".toList "15&20".toList (by decide) (by decide)
  ⟨(parse_uri_twice ' ' "/a.html?x=1".toList).1 (Or.inl (by decide)),
   h.1, h.2 ⟨"/".toList, "/adder".toList, by decide⟩⟩

/-! ## `get_filetype` and `serve_static` -/

/-- C7 at `./a.html.png`, `./x.html/pic.gif` and `./a.htmlx`: `get_filetype`
looks for `.html` anywhere in the file name and answers `text/html` for all
three, where the suffix table gives `image/png`, `image/gif` and
`text/plain`. -/
theorem get_filetype_not_by_suffix :
    get_filetype "./a.html.png".toList = "text/html".toList ∧
    suffixType "./a.html.png".toList = "image/png".toList ∧
    get_filetype "./x.html/pic.gif".toList = "text/html".toList ∧
    suffixType "./x.html/pic.gif".toList = "image/gif".toList ∧
    get_filetype "./a.htmlx".toList = "text/html".toList ∧
    suffixType "./a.htmlx".toList = "text/plain".toList := by
  decide

/-- C8 at a regular, owner-readable file of 4294967301 bytes (with arrays of
8192 bytes, which this request does not fill): the size passes through the
`int` parameter of `serve_static`, the header declares `Content-length: 5`
and 5 bytes are written. -/
theorem doit_content_length_truncated :
    (doit 8192 8192 ⟨[], [], [], [], ' ', []⟩
        ["GET /big.bin HTTP/1.0\r\n".toList, "\r\n".toList]
        (fun f =>
          if f = "./big.bin".toList then some ⟨0o100644, 4294967301⟩ else none)).events =
      [Event.readline, Event.readline, Event.stat "./big.bin".toList,
       Event.writen ("HTTP/1.0 200 OK\r\nServer: Tiny Web Server\r\nConnection: close\r\n" ++
         "Content-length: 5\r\nContent-type: text/plain\r\n\r\n").toList,
       Event.openRd "./big.bin".toList, Event.mmap 5, Event.close, Event.writenMapped 5,
       Event.munmap 5] := by
  decide

/-! ## Lemmas on `clienterror` -/

theorem toInt32_of_lt (n : Nat) (h : n < 2 ^ 31) : toInt32 (n : Int) = (n : Int) := by
  unfold toInt32
  omega

theorem fmtInt_natCast (n : Nat) : fmtInt (n : Int) = (Nat.repr n).toList := by
  unfold fmtInt
  have : ¬ ((n : Int) < 0) := by omega
  simp [this, Nat.repr, String.toList, List.asString]

theorem errorPage_length (cause errnum shortmsg longmsg : CStr) :
    (errorPage cause errnum shortmsg longmsg).length =
      99 + errnum.length + shortmsg.length + longmsg.length + cause.length := by
  simp [errorPage]
  omega

theorem clienterror_body_eq (MAXBUF : Nat) (cause errnum shortmsg longmsg : CStr) :
    clienterror_body MAXBUF cause errnum shortmsg longmsg =
      if (errorPage cause errnum shortmsg longmsg).length < MAXBUF then
        some (errorPage cause errnum shortmsg longmsg)
      else none := by
  have hL := errorPage_length cause errnum shortmsg longmsg
  unfold clienterror_body
  split
  · rename_i h1
    simp [sprintf_in, sprintf, sprintfAux] at h1
    rw [if_neg (by omega)]
  · rename_i b1 h1
    simp [sprintf_in, sprintf, sprintfAux] at h1
    obtain ⟨-, rfl⟩ := h1
    split
    · rename_i h2
      simp [sprintf_in, sprintf, sprintfAux] at h2
      rw [if_neg (by omega)]
    · rename_i b2 h2
      simp [sprintf_in, sprintf, sprintfAux] at h2
      obtain ⟨-, rfl⟩ := h2
      split
      · rename_i h3
        simp [sprintf_in, sprintf, sprintfAux] at h3
        rw [if_neg (by omega)]
      · rename_i b3 h3
        simp [sprintf_in, sprintf, sprintfAux] at h3
        obtain ⟨-, rfl⟩ := h3
        split
        · rename_i h4
          simp [sprintf_in, sprintf, sprintfAux] at h4
          rw [if_neg (by omega)]
        · rename_i b4 h4
          simp [sprintf_in, sprintf, sprintfAux] at h4
          obtain ⟨-, rfl⟩ := h4
          by_cases h5 : (errorPage cause errnum shortmsg longmsg).length < MAXBUF
          · rw [if_pos h5]
            simp [sprintf_in, sprintf, sprintfAux, errorPage]
            omega
          · rw [if_neg h5]
            simp [sprintf_in, sprintf, sprintfAux]
            omega

theorem clienterror_of_overflow (MAXLINE MAXBUF : Nat) (cause errnum shortmsg longmsg : CStr)
    (h : MAXBUF ≤ (errorPage cause errnum shortmsg longmsg).length) :
    clienterror MAXLINE MAXBUF cause errnum shortmsg longmsg = overflow [] := by
  unfold clienterror
  rw [clienterror_body_eq, if_neg (by omega)]

theorem clienterror_of_fits (MAXLINE MAXBUF : Nat) (cause errnum shortmsg longmsg : CStr)
    (hbody : (errorPage cause errnum shortmsg longmsg).length < MAXBUF)
    (hbuf : MAXBUF ≤ 2 ^ 31)
    (hline : 12 + errnum.length + shortmsg.length < MAXLINE) (h32 : 32 ≤ MAXLINE) :
    clienterror MAXLINE MAXBUF cause errnum shortmsg longmsg =
      { events :=
          [Event.writen ("HTTP/1.0 ".toList ++ errnum ++ " ".toList ++ shortmsg ++ "\r\n".toList),
           Event.writen "Content-type: text/html\r\n".toList,
           Event.writen ("Content-length: ".toList ++
             (Nat.repr (errorPage cause errnum shortmsg longmsg).length).toList ++
             "\r\n\r\n".toList),
           Event.writen (errorPage cause errnum shortmsg longmsg)],
        returns := true } := by
  have hint : (errorPage cause errnum shortmsg longmsg).length < 2 ^ 31 := by omega
  have hdig : (Nat.repr (errorPage cause errnum shortmsg longmsg).length).toList.length ≤ 10 :=
    Nat.repr_length _ 10 (by decide) (by omega)
  have h1 : sprintf_in MAXLINE "HTTP/1.0 %s %s\r\n" [Arg.s errnum, Arg.s shortmsg] =
      some ("HTTP/1.0 ".toList ++ errnum ++ " ".toList ++ shortmsg ++ "\r\n".toList) := by
    simp [sprintf_in, sprintf, sprintfAux]
    omega
  have h2 : sprintf_in MAXLINE "Content-type: text/html\r\n" [] =
      some "Content-type: text/html\r\n".toList := by
    simp [sprintf_in, sprintf, sprintfAux]
    omega
  have h3 : sprintf_in MAXLINE "Content-length: %d\r\n\r\n"
      [Arg.d (toInt32 (strlen (errorPage cause errnum shortmsg longmsg)))] =
      some ("Content-length: ".toList ++
        (Nat.repr (errorPage cause errnum shortmsg longmsg).length).toList ++
        "\r\n\r\n".toList) := by
    simp only [strlen, toInt32_of_lt _ hint]
    simp [sprintf_in, sprintf, sprintfAux, fmtInt_natCast]
    simp at hdig
    omega
  unfold clienterror
  rw [clienterror_body_eq, if_pos hbody]
  simp only [h1, h2, h3]

/-! ## Lemmas on the comparison functions -/

theorem NUL_not_mem_cstr (bytes : List Char) : NUL ∉ cstr bytes := by
  intro h
  have := List.mem_takeWhile_imp h
  simp at this

theorem toNat_injective (a b : Char) (h : a.toNat = b.toNat) : a = b := by
  rw [← Char.ofNat_toNat a, ← Char.ofNat_toNat b, h]

theorem toNat_ne_zero (c : Char) (h : c ≠ NUL) : c.toNat ≠ 0 := by
  intro h0
  apply h
  apply toNat_injective
  rw [h0]
  rfl

theorem toLower_ne_NUL (c : Char) (h : c ≠ NUL) : c.toLower ≠ NUL := by
  unfold Char.toLower
  by_cases hr : c.toNat ≥ 65 ∧ c.toNat ≤ 90
  · simp only [hr, and_self, if_true]
    obtain ⟨h1, h2⟩ := hr
    generalize c.toNat = n at h1 h2
    interval_cases n <;> decide
  · simp only [hr, if_false]
    exact h

theorem tolower_ne_zero (c : Char) (h : c ≠ NUL) : tolower c ≠ 0 := by
  unfold tolower
  have := toNat_ne_zero _ (toLower_ne_NUL c h)
  omega

theorem tolower_eq_iff (a b : Char) : tolower a = tolower b ↔ a.toLower = b.toLower := by
  unfold tolower
  constructor
  · intro h
    apply toNat_injective
    omega
  · intro h
    rw [h]

theorem strcmp_eq_zero_iff (a b : CStr) (ha : NUL ∉ a) (hb : NUL ∉ b) :
    strcmp a b = 0 ↔ a = b := by
  induction a generalizing b with
  | nil =>
    cases b with
    | nil => simp [strcmp]
    | cons y t =>
      have hy : y ≠ NUL := fun h => hb (by simp [h])
      have := toNat_ne_zero y hy
      simp only [strcmp, List.nil_eq, reduceCtorEq, iff_false]
      omega
  | cons x s ih =>
    cases b with
    | nil =>
      have hx : x ≠ NUL := fun h => ha (by simp [h])
      have := toNat_ne_zero x hx
      simp only [strcmp, reduceCtorEq, iff_false]
      omega
    | cons y t =>
      have hs : NUL ∉ s := fun h => ha (List.mem_cons_of_mem _ h)
      have ht : NUL ∉ t := fun h => hb (List.mem_cons_of_mem _ h)
      unfold strcmp
      by_cases hxy : x = y
      · simp [hxy, ih t hs ht]
      · have hn : x.toNat ≠ y.toNat := fun h => hxy (toNat_injective x y h)
        simp only [hxy, if_false, List.cons.injEq, false_and, iff_false]
        omega

theorem strcasecmp_eq_zero_iff (a b : CStr) (ha : NUL ∉ a) (hb : NUL ∉ b) :
    strcasecmp a b = 0 ↔ a.map Char.toLower = b.map Char.toLower := by
  induction a generalizing b with
  | nil =>
    cases b with
    | nil => simp [strcasecmp]
    | cons y t =>
      have hy : y ≠ NUL := fun h => hb (by simp [h])
      have := tolower_ne_zero y hy
      simp only [strcasecmp, List.map_nil, List.map_cons, List.nil_eq, reduceCtorEq, iff_false]
      omega
  | cons x s ih =>
    cases b with
    | nil =>
      have hx : x ≠ NUL := fun h => ha (by simp [h])
      have := tolower_ne_zero x hx
      simp only [strcasecmp, List.map_nil, List.map_cons, reduceCtorEq, iff_false]
      omega
    | cons y t =>
      have hs : NUL ∉ s := fun h => ha (List.mem_cons_of_mem _ h)
      have ht : NUL ∉ t := fun h => hb (List.mem_cons_of_mem _ h)
      unfold strcasecmp
      by_cases hxy : tolower x = tolower y
      · simp [hxy, ih t hs ht, (tolower_eq_iff x y).mp hxy]
      · have hn : x.toLower ≠ y.toLower := fun h => hxy ((tolower_eq_iff x y).mpr h)
        simp only [hxy, if_false, List.map_cons, List.cons.injEq, hn, false_and, iff_false]
        omega

theorem strcasecmp_GET_iff (m : CStr) (hm : NUL ∉ m) :
    strcasecmp m "GET".toList = 0 ↔ m.map Char.toLower = "get".toList := by
  rw [strcasecmp_eq_zero_iff m "GET".toList hm (by decide)]
  rfl

theorem sscanf3_method_NUL (buf method0 uri0 version0 : CStr)
    (hb : NUL ∉ buf) (hm : NUL ∉ method0) :
    NUL ∉ (sscanf3 buf method0 uri0 version0).method := by
  have hsub : NUL ∉ (buf.dropWhile isspace).takeWhile (fun c => !isspace c) := fun h =>
    hb (List.dropWhile_subset _ (List.takeWhile_subset _ h))
  unfold sscanf3
  simp only []
  split
  · exact hm
  · split
    · exact hsub
    · split
      · exact hsub
      · exact hsub

theorem Rio_readlineb_NUL (conn : List (List Char)) (bytes : List Char) :
    NUL ∉ (Rio_readlineb conn (cstr bytes)).1 := by
  unfold Rio_readlineb
  cases conn with
  | nil => exact NUL_not_mem_cstr bytes
  | cons l r => exact NUL_not_mem_cstr l

/-! ## Lemmas on the header loop -/

theorem skip_headers_of_blank (rest : List (List Char)) (l : List Char)
    (h : ∃ x ∈ l :: rest, cstr x = "\r\n".toList) :
    skip_headers rest (cstr l) =
      (List.replicate ((l :: rest).takeWhile (fun x => cstr x != "\r\n".toList)).length
        Event.readline, true) := by
  induction rest generalizing l with
  | nil =>
    obtain ⟨x, hx, hc⟩ := h
    have hl : cstr l = "\r\n".toList := by
      rcases List.mem_cons.mp hx with h1 | h1
      · rw [← h1]; exact hc
      · simp at h1
    have h0 : strcmp (cstr l) "\r\n".toList = 0 := by rw [hl]; decide
    have hne : (cstr l != "\r\n".toList) = false := by simp [hl]
    simp only [List.takeWhile_cons, hne, skip_headers, h0, Bool.false_eq_true, if_false,
      List.length_nil, List.replicate_zero, beq_self_eq_true]
  | cons l2 r2 ih =>
    by_cases hl : cstr l = "\r\n".toList
    · have h0 : ¬ strcmp (cstr l) "\r\n".toList ≠ 0 := by rw [hl]; decide
      have hne : (cstr l != "\r\n".toList) = false := by simp [hl]
      unfold skip_headers
      rw [if_neg h0]
      simp only [List.takeWhile_cons, hne, Bool.false_eq_true, if_false, List.length_nil,
        List.replicate_zero]
    · have h0 : strcmp (cstr l) "\r\n".toList ≠ 0 := fun hz =>
        hl ((strcmp_eq_zero_iff _ _ (NUL_not_mem_cstr l) (by decide)).mp hz)
      have h2 : ∃ x ∈ l2 :: r2, cstr x = "\r\n".toList := by
        obtain ⟨x, hx, hc⟩ := h
        rcases List.mem_cons.mp hx with h1 | h1
        · exact absurd (h1 ▸ hc) hl
        · exact ⟨x, h1, hc⟩
      have hih := ih l2 h2
      have hne : (cstr l != "\r\n".toList) = true := by simpa using hl
      unfold skip_headers
      rw [if_pos h0]
      simp only [Rio_readlineb, hih]
      rw [List.takeWhile_cons (fun x => cstr x != "\r\n".toList) l]
      simp only [hne, if_true, List.length_cons, List.replicate_succ]

theorem read_requesthdrs_of_blank (conn : List (List Char)) (buf0 : CStr)
    (h : ∃ x ∈ conn, cstr x = "\r\n".toList) :
    read_requesthdrs conn buf0 = (List.replicate (headerLines conn) Event.readline, true) := by
  cases conn with
  | nil => simp at h
  | cons l rest =>
    simp only [read_requesthdrs, Rio_readlineb, skip_headers_of_blank rest l h, headerLines,
      List.replicate_succ]

theorem skip_headers_events (conn : List (List Char)) (buf : CStr) :
    ∀ e ∈ (skip_headers conn buf).1, e = Event.readline := by
  induction conn generalizing buf with
  | nil => simp [skip_headers]
  | cons l r ih =>
    unfold skip_headers
    by_cases h0 : strcmp buf "\r\n".toList ≠ 0
    · rw [if_pos h0]
      intro e he
      rcases List.mem_cons.mp he with h1 | h1
      · exact h1
      · exact ih _ e h1
    · rw [if_neg h0]
      simp

theorem read_requesthdrs_events (conn : List (List Char)) (buf0 : CStr) :
    ∀ e ∈ (read_requesthdrs conn buf0).1, e = Event.readline := by
  intro e he
  unfold read_requesthdrs at he
  rcases List.mem_cons.mp he with h1 | h1
  · exact h1
  · exact skip_headers_events _ _ e h1

/-! ## Lemmas on `doit` -/

theorem doit_of_other_method (MAXLINE MAXBUF : Nat) (fr : Frame) (conn : List (List Char))
    (stat : CStr → Option Stat)
    (h : strcasecmp (requestLine fr conn).method "GET".toList ≠ 0) :
    doit MAXLINE MAXBUF fr conn stat =
      thenCall [Event.readline]
        (clienterror MAXLINE MAXBUF (requestLine fr conn).method "501".toList
          "Not implemented".toList "Tiny does not implement this method".toList) := by
  unfold requestLine at h ⊢
  unfold doit
  simp only []
  rw [if_pos h]

theorem doit_of_GET (MAXLINE MAXBUF : Nat) (fr : Frame) (conn : List (List Char))
    (stat : CStr → Option Stat)
    (h : strcasecmp (requestLine fr conn).method "GET".toList = 0)
    (hd : (read_requesthdrs (Rio_readlineb conn (cstr fr.buf)).2 (cstr fr.hdrbuf)).2 = true) :
    doit MAXLINE MAXBUF fr conn stat =
      match stat (resolved fr conn).filename with
      | none =>
        thenCall (Event.readline ::
            (read_requesthdrs (Rio_readlineb conn (cstr fr.buf)).2 (cstr fr.hdrbuf)).1 ++
            [Event.stat (resolved fr conn).filename])
          (clienterror MAXLINE MAXBUF (resolved fr conn).filename "404".toList
            "Not found".toList "Tiny couldn't find this file".toList)
      | some sbuf =>
        if (resolved fr conn).ret ≠ 0 then
          if !(S_ISREG sbuf.st_mode) || !(S_IRUSR &&& sbuf.st_mode != 0) then
            thenCall (Event.readline ::
                (read_requesthdrs (Rio_readlineb conn (cstr fr.buf)).2 (cstr fr.hdrbuf)).1 ++
                [Event.stat (resolved fr conn).filename])
              (clienterror MAXLINE MAXBUF (resolved fr conn).filename "403".toList
                "Forbidden".toList "Tiny couldn't read the file".toList)
          else
            { events := Event.readline ::
                (read_requesthdrs (Rio_readlineb conn (cstr fr.buf)).2 (cstr fr.hdrbuf)).1 ++
                Event.stat (resolved fr conn).filename ::
                serve_static (resolved fr conn).filename (toInt32 sbuf.st_size),
              returns := true }
        else
          if !(S_ISREG sbuf.st_mode) || !(S_IXUSR &&& sbuf.st_mode != 0) then
            thenCall (Event.readline ::
                (read_requesthdrs (Rio_readlineb conn (cstr fr.buf)).2 (cstr fr.hdrbuf)).1 ++
                [Event.stat (resolved fr conn).filename])
              (clienterror MAXLINE MAXBUF (resolved fr conn).filename "403".toList
                "Forbidden".toList "Tiny couldn't run the CGI program".toList)
          else
            { events := Event.readline ::
                (read_requesthdrs (Rio_readlineb conn (cstr fr.buf)).2 (cstr fr.hdrbuf)).1 ++
                Event.stat (resolved fr conn).filename ::
                serve_dynamic (resolved fr conn).filename (resolved fr conn).cgiargs,
              returns := true } := by
  unfold resolved
  unfold requestLine at h ⊢
  unfold doit
  simp only []
  rw [if_neg (not_not.mpr h)]
  simp only [hd, Bool.not_true, Bool.false_eq_true, if_false]

theorem doit_of_GET_hang (MAXLINE MAXBUF : Nat) (fr : Frame) (conn : List (List Char))
    (stat : CStr → Option Stat)
    (h : strcasecmp (requestLine fr conn).method "GET".toList = 0)
    (hd : (read_requesthdrs (Rio_readlineb conn (cstr fr.buf)).2 (cstr fr.hdrbuf)).2 = false) :
    doit MAXLINE MAXBUF fr conn stat =
      { events := Event.readline ::
          (read_requesthdrs (Rio_readlineb conn (cstr fr.buf)).2 (cstr fr.hdrbuf)).1,
        returns := false } := by
  unfold requestLine at h
  unfold doit
  simp only []
  rw [if_neg (not_not.mpr h)]
  simp only [hd, Bool.not_false, if_true]

theorem requestLine_method_NUL (fr : Frame) (conn : List (List Char)) :
    NUL ∉ (requestLine fr conn).method :=
  sscanf3_method_NUL _ _ _ _ (Rio_readlineb_NUL conn fr.buf) (NUL_not_mem_cstr fr.method)

theorem sscanf3_method_of_token (ws t tail method0 uri0 version0 : CStr)
    (hws : ∀ c ∈ ws, isspace c = true) (ht : t ≠ [])
    (htok : ∀ c ∈ t, isspace c = false)
    (htail : ∀ c, tail.head? = some c → isspace c = true) :
    (sscanf3 (ws ++ t ++ tail) method0 uri0 version0).method = t := by
  have hin : (ws ++ t ++ tail).dropWhile isspace = t ++ tail := by
    rw [List.append_assoc, List.dropWhile_append_of_pos hws]
    cases t with
    | nil => exact absurd rfl ht
    | cons a t2 =>
      have ha : ¬ isspace a = true := by simp [htok a (by simp)]
      rw [List.cons_append, List.dropWhile_cons_of_neg ha]
  have htk : (t ++ tail).takeWhile (fun c => !isspace c) = t := by
    rw [List.takeWhile_append_of_pos (fun c hc => by simp [htok c hc])]
    cases tail with
    | nil => simp
    | cons b tl =>
      have hb : isspace b = true := htail b rfl
      simp only [List.takeWhile_cons, hb, Bool.not_true, Bool.false_eq_true, if_false,
        List.append_nil]
  have hne : (t ++ tail).isEmpty = false := by
    cases t with
    | nil => exact absurd rfl ht
    | cons a t2 => rfl
  unfold sscanf3
  simp only [hin, htk, hne, Bool.false_eq_true, if_false]
  split
  · rfl
  · split <;> rfl

theorem two_pow_and_ne_zero (k m : Nat) : (2 ^ k &&& m != 0) = m.testBit k := by
  cases hb : m.testBit k with
  | true =>
    have h1 : (2 ^ k &&& m).testBit k = true := by
      rw [Nat.testBit_and, Nat.testBit_two_pow_self, hb]
      rfl
    have h2 : 2 ^ k &&& m ≠ 0 := by
      intro h0
      rw [h0] at h1
      simp at h1
    simpa using h2
  | false =>
    have h2 : 2 ^ k &&& m = 0 := by
      apply Nat.eq_of_testBit_eq
      intro i
      rw [Nat.testBit_and, Nat.testBit_two_pow, Nat.zero_testBit]
      by_cases hki : k = i
      · subst hki
        simp [hb]
      · simp [hki]
    simp [h2]

theorem S_IRUSR_and (m : Nat) : (S_IRUSR &&& m != 0) = m.testBit 8 :=
  two_pow_and_ne_zero 8 m

theorem S_IXUSR_and (m : Nat) : (S_IXUSR &&& m != 0) = m.testBit 6 :=
  two_pow_and_ne_zero 6 m

theorem resolved_ret (fr : Frame) (conn : List (List Char)) :
    (resolved fr conn).ret ≠ 0 ↔ ¬ marker <:+: (requestLine fr conn).uri := by
  unfold resolved
  by_cases hm : marker <:+: (requestLine fr conn).uri
  · rw [parse_uri_of_marker _ _ hm]
    simp [hm]
  · rw [parse_uri_of_no_marker _ _ hm]
    simp [hm]

theorem serve_static_no_403 (filename : CStr) (filesize : Int) :
    ∀ s, Event.writen s ∈ serve_static filename filesize →
      ¬ "HTTP/1.0 403".toList <+: s := by
  intro s hs
  simp [serve_static, serve_static_header, sprintf, sprintfAux] at hs
  subst hs
  simp [List.cons_prefix_cons]

theorem serve_dynamic_no_403 (filename cgiargs : CStr) :
    ∀ s, Event.writen s ∈ serve_dynamic filename cgiargs →
      ¬ "HTTP/1.0 403".toList <+: s := by
  intro s hs
  simp [serve_dynamic, sprintf, sprintfAux] at hs
  rcases hs with h | h <;> subst h <;> simp [List.cons_prefix_cons]

theorem doit_reads (fr : Frame) (line : List Char) (rest : List (List Char))
    (hend : ∃ l ∈ rest, cstr l = "\r\n".toList) :
    read_requesthdrs (Rio_readlineb (line :: rest) (cstr fr.buf)).2 (cstr fr.hdrbuf) =
      (List.replicate (headerLines rest) Event.readline, true) := by
  simp only [Rio_readlineb]
  exact read_requesthdrs_of_blank rest _ hend

theorem thenCall_of_fits (MAXLINE MAXBUF : Nat) (pre : List Event)
    (cause errnum shortmsg longmsg : CStr)
    (hbody : (errorPage cause errnum shortmsg longmsg).length < MAXBUF)
    (hbuf : MAXBUF ≤ 2 ^ 31)
    (hline : 12 + errnum.length + shortmsg.length < MAXLINE) (h32 : 32 ≤ MAXLINE) :
    thenCall (pre ++ [Event.stat cause])
        (clienterror MAXLINE MAXBUF cause errnum shortmsg longmsg) =
      { events := pre ++ Event.stat cause ::
          [Event.writen ("HTTP/1.0 ".toList ++ errnum ++ " ".toList ++ shortmsg ++ "\r\n".toList),
           Event.writen "Content-type: text/html\r\n".toList,
           Event.writen ("Content-length: ".toList ++
             (Nat.repr (errorPage cause errnum shortmsg longmsg).length).toList ++
             "\r\n\r\n".toList),
           Event.writen (errorPage cause errnum shortmsg longmsg)],
        returns := true } := by
  rw [clienterror_of_fits MAXLINE MAXBUF cause errnum shortmsg longmsg hbody hbuf hline h32]
  simp only [thenCall, List.append_assoc, List.singleton_append]

/-! ## `doit`: permissions -/

/-- C6. For a `GET` request whose resolved file name `stat` finds: for a
static target `doit` ends with the call of `clienterror` for `403 Forbidden`
when the file is not a regular file or lacks the owner-read bit, and makes the
calls of `serve_static` otherwise; for a dynamic target it ends with the call
of `clienterror` for `403 Forbidden` when the file is not a regular file or
lacks the owner-execute bit, and makes the calls of `serve_dynamic` otherwise.
The trace has nothing else after the query, and a served request writes no
`403` status line. When the page fits the arrays of `clienterror`, what
`doit` does for a refused file is the reads, the query and the four writes of
the `403` page. -/
theorem doit_permission (MAXLINE MAXBUF : Nat) (fr : Frame) (line : List Char)
    (rest : List (List Char)) (stat : CStr → Option Stat) (sbuf : Stat)
    (hget : (requestLine fr (line :: rest)).method.map Char.toLower = "get".toList)
    (hend : ∃ l ∈ rest, cstr l = "\r\n".toList)
    (hstat : stat (resolved fr (line :: rest)).filename = some sbuf) :
    (¬ marker <:+: (requestLine fr (line :: rest)).uri →
      ((S_ISREG sbuf.st_mode = false ∨ sbuf.st_mode.testBit 8 = false) →
        doit MAXLINE MAXBUF fr (line :: rest) stat =
          thenCall
            (Event.readline :: List.replicate (headerLines rest) Event.readline ++
              [Event.stat (resolved fr (line :: rest)).filename])
            (clienterror MAXLINE MAXBUF (resolved fr (line :: rest)).filename "403".toList
              "Forbidden".toList "Tiny couldn't read the file".toList) ∧
        ((errorPage (resolved fr (line :: rest)).filename "403".toList "Forbidden".toList
            "Tiny couldn't read the file".toList).length < MAXBUF →
          MAXBUF ≤ 2 ^ 31 → 32 ≤ MAXLINE →
          doit MAXLINE MAXBUF fr (line :: rest) stat =
            { events := Event.readline :: List.replicate (headerLines rest) Event.readline ++
                Event.stat (resolved fr (line :: rest)).filename ::
                [Event.writen "HTTP/1.0 403 Forbidden\r\n".toList,
                 Event.writen "Content-type: text/html\r\n".toList,
                 Event.writen ("Content-length: ".toList ++
                   (Nat.repr (errorPage (resolved fr (line :: rest)).filename "403".toList
                     "Forbidden".toList "Tiny couldn't read the file".toList).length).toList ++
                   "\r\n\r\n".toList),
                 Event.writen (errorPage (resolved fr (line :: rest)).filename "403".toList
                   "Forbidden".toList "Tiny couldn't read the file".toList)],
              returns := true })) ∧
      ((S_ISREG sbuf.st_mode = true ∧ sbuf.st_mode.testBit 8 = true) →
        doit MAXLINE MAXBUF fr (line :: rest) stat =
          { events := Event.readline :: List.replicate (headerLines rest) Event.readline ++
              Event.stat (resolved fr (line :: rest)).filename ::
              serve_static (resolved fr (line :: rest)).filename (toInt32 sbuf.st_size),
            returns := true } ∧
        ∀ s, Event.writen s ∈ (doit MAXLINE MAXBUF fr (line :: rest) stat).events →
          ¬ "HTTP/1.0 403".toList <+: s)) ∧
    (marker <:+: (requestLine fr (line :: rest)).uri →
      ((S_ISREG sbuf.st_mode = false ∨ sbuf.st_mode.testBit 6 = false) →
        doit MAXLINE MAXBUF fr (line :: rest) stat =
          thenCall
            (Event.readline :: List.replicate (headerLines rest) Event.readline ++
              [Event.stat (resolved fr (line :: rest)).filename])
            (clienterror MAXLINE MAXBUF (resolved fr (line :: rest)).filename "403".toList
              "Forbidden".toList "Tiny couldn't run the CGI program".toList) ∧
        ((errorPage (resolved fr (line :: rest)).filename "403".toList "Forbidden".toList
            "Tiny couldn't run the CGI program".toList).length < MAXBUF →
          MAXBUF ≤ 2 ^ 31 → 32 ≤ MAXLINE →
          doit MAXLINE MAXBUF fr (line :: rest) stat =
            { events := Event.readline :: List.replicate (headerLines rest) Event.readline ++
                Event.stat (resolved fr (line :: rest)).filename ::
                [Event.writen "HTTP/1.0 403 Forbidden\r\n".toList,
                 Event.writen "Content-type: text/html\r\n".toList,
                 Event.writen ("Content-length: ".toList ++
                   (Nat.repr (errorPage (resolved fr (line :: rest)).filename "403".toList
                     "Forbidden".toList
                     "Tiny couldn't run the CGI program".toList).length).toList ++
                   "\r\n\r\n".toList),
                 Event.writen (errorPage (resolved fr (line :: rest)).filename "403".toList
                   "Forbidden".toList "Tiny couldn't run the CGI program".toList)],
              returns := true })) ∧
      ((S_ISREG sbuf.st_mode = true ∧ sbuf.st_mode.testBit 6 = true) →
        doit MAXLINE MAXBUF fr (line :: rest) stat =
          { events := Event.readline :: List.replicate (headerLines rest) Event.readline ++
              Event.stat (resolved fr (line :: rest)).filename ::
              serve_dynamic (resolved fr (line :: rest)).filename
                (resolved fr (line :: rest)).cgiargs,
            returns := true } ∧
        ∀ s, Event.writen s ∈ (doit MAXLINE MAXBUF fr (line :: rest) stat).events →
          ¬ "HTTP/1.0 403".toList <+: s)) := by
  have h0 : strcasecmp (requestLine fr (line :: rest)).method "GET".toList = 0 :=
    (strcasecmp_GET_iff _ (requestLine_method_NUL fr _)).mpr hget
  have hd := doit_reads fr line rest hend
  have hdo := doit_of_GET MAXLINE MAXBUF fr (line :: rest) stat h0 (by rw [hd])
  rw [hd, hstat] at hdo
  simp only [S_IRUSR_and, S_IXUSR_and] at hdo
  have hreads : ∀ s, Event.writen s ∉
      List.replicate (headerLines rest) Event.readline := by
    intro s hs
    have := List.eq_of_mem_replicate hs
    cases this
  constructor
  · intro hm
    have hr : (resolved fr (line :: rest)).ret ≠ 0 := (resolved_ret fr _).mpr hm
    rw [if_pos hr] at hdo
    constructor
    · intro hbad
      have : (!S_ISREG sbuf.st_mode || !sbuf.st_mode.testBit 8) = true := by
        rcases hbad with h | h <;> simp [h]
      rw [if_pos this] at hdo
      refine ⟨hdo, ?_⟩
      intro hfit hbuf h32
      rw [hdo, List.cons_append,
        ← List.cons_append, thenCall_of_fits MAXLINE MAXBUF _ _ _ _ _ hfit hbuf
          (by simp; omega) h32]
      rfl
    · intro hok
      have : ¬ (!S_ISREG sbuf.st_mode || !sbuf.st_mode.testBit 8) = true := by
        simp [hok.1, hok.2]
      rw [if_neg this] at hdo
      refine ⟨hdo, ?_⟩
      intro s hs
      rw [hdo] at hs
      simp only [List.mem_cons, List.mem_append, reduceCtorEq, false_or] at hs
      rcases hs with h1 | h1
      · exact absurd h1 (hreads s)
      · exact serve_static_no_403 _ _ s h1
  · intro hm
    have hr : ¬ (resolved fr (line :: rest)).ret ≠ 0 := fun h => (resolved_ret fr _).mp h hm
    rw [if_neg hr] at hdo
    constructor
    · intro hbad
      have : (!S_ISREG sbuf.st_mode || !sbuf.st_mode.testBit 6) = true := by
        rcases hbad with h | h <;> simp [h]
      rw [if_pos this] at hdo
      refine ⟨hdo, ?_⟩
      intro hfit hbuf h32
      rw [hdo, List.cons_append,
        ← List.cons_append, thenCall_of_fits MAXLINE MAXBUF _ _ _ _ _ hfit hbuf
          (by simp; omega) h32]
      rfl
    · intro hok
      have : ¬ (!S_ISREG sbuf.st_mode || !sbuf.st_mode.testBit 6) = true := by
        simp [hok.1, hok.2]
      rw [if_neg this] at hdo
      refine ⟨hdo, ?_⟩
      intro s hs
      rw [hdo] at hs
      simp only [List.mem_cons, List.mem_append, reduceCtorEq, false_or] at hs
      rcases hs with h1 | h1
      · exact absurd h1 (hreads s)
      · exact serve_dynamic_no_403 _ _ s h1
set_option maxRecDepth 100000 in
/-- With arrays of 8192 bytes: a page without the owner-read bit and a program
without the owner-execute bit are refused, the home page and the program
`adder` are served. -/
theorem doit_permission_witness :
    doit 8192 8192 emptyFrame ["GET /secret.html HTTP/1.0\r\n".toList, "\r\n".toList]
        sampleStat =
      { events := [Event.readline, Event.readline, Event.stat "./secret.html".toList,
          Event.writen "HTTP/1.0 403 Forbidden\r\n".toList,
          Event.writen "Content-type: text/html\r\n".toList,
          Event.writen "Content-length: 151\r\n\r\n".toList,
          Event.writen (errorPage "./secret.html".toList "403".toList "Forbidden".toList
            "Tiny couldn't read the file".toList)],
        returns := true } ∧
    doit 8192 8192 emptyFrame ["GET / HTTP/1.0\r\n".toList, "\r\n".toList] sampleStat =
      { events := [Event.readline, Event.readline, Event.stat "./home.html".toList] ++
          serve_static "./home.html".toList 120,
        returns := true } ∧
    doit 8192 8192 emptyFrame ["GET /cgi-bin/data?1 HTTP/1.0\r\n".toList, "\r\n".toList]
        sampleStat =
      { events := [Event.readline, Event.readline, Event.stat "./cgi-bin/data".toList,
          Event.writen "HTTP/1.0 403 Forbidden\r\n".toList,
          Event.writen "Content-type: text/html\r\n".toList,
          Event.writen "Content-length: 158\r\n\r\n".toList,
          Event.writen (errorPage "./cgi-bin/data".toList "403".toList "Forbidden".toList
            "Tiny couldn't run the CGI program".toList)],
        returns := true } ∧
    doit 8192 8192 emptyFrame ["GET /cgi-bin/adder?15&20 HTTP/1.0\r\n".toList, "\r\n".toList]
        sampleStat =
      { events := [Event.readline, Event.readline, Event.stat "./cgi-bin/adder".toList] ++
          serve_dynamic "./cgi-bin/adder".toList "15&20".toList,
        returns := true } :=
  have hend : ∃ l ∈ ["\r\n".toList], cstr l = "\r\n".toList :=
    ⟨"\r\n".toList, by simp, by decide⟩
  ⟨(((doit_permission 8192 8192 emptyFrame "GET /secret.html HTTP/1.0\r\n".toList
      ["\r\n".toList] sampleStat { st_mode := 0o100200, st_size := 10 } (by decide) hend rfl).1
      (by decide)).1 (Or.inr (by decide))).2 (by decide) (by decide) (by decide),
   (((doit_permission 8192 8192 emptyFrame "GET / HTTP/1.0\r\n".toList ["\r\n".toList]
      sampleStat { st_mode := 0o100644, st_size := 120 } (by decide) hend rfl).1
      (by decide)).2 ⟨by decide, by decide⟩).1,
   (((doit_permission 8192 8192 emptyFrame "GET /cgi-bin/data?1 HTTP/1.0\r\n".toList
      ["\r\n".toList] sampleStat { st_mode := 0o100644, st_size := 10 } (by decide) hend rfl).2
      ⟨"/".toList, "/data?1".toList, by decide⟩).1 (Or.inr (by decide))).2
      (by decide) (by decide) (by decide),
   (((doit_permission 8192 8192 emptyFrame "GET /cgi-bin/adder?15&20 HTTP/1.0\r\n".toList
      ["\r\n".toList] sampleStat { st_mode := 0o100755, st_size := 9000 } (by decide) hend rfl).2
      ⟨"/".toList, "/adder?15&20".toList, by decide⟩).2 ⟨by decide, by decide⟩).1⟩

/-! ## Requests whose error page does not fit `body[MAXBUF]` -/

theorem cstr_of_not_mem (l : List Char) (h : NUL ∉ l) : cstr l = l := by
  unfold cstr
  rw [List.takeWhile_eq_self_iff]
  intro c hc
  have : c ≠ NUL := fun e => h (e ▸ hc)
  simpa using this

theorem thenCall_overflow (pre : List Event) : thenCall pre (overflow []) = overflow pre := by
  simp [thenCall, overflow]

theorem doit_long_method (MAXLINE MAXBUF n : Nat) (rest : List (List Char))
    (stat : CStr → Option Stat) (hn : 0 < n) (hbig : MAXBUF ≤ 152 + n) :
    doit MAXLINE MAXBUF emptyFrame
        ((List.replicate n 'A' ++ " / HTTP/1.0\r\n".toList) :: rest) stat =
      overflow [Event.readline] := by
  have hnul : NUL ∉ List.replicate n 'A' ++ " / HTTP/1.0\r\n".toList := by
    intro h
    rcases List.mem_append.mp h with h1 | h1
    · have := List.eq_of_mem_replicate h1
      exact absurd this (by decide)
    · revert h1
      decide
  have hm : (requestLine emptyFrame
      ((List.replicate n 'A' ++ " / HTTP/1.0\r\n".toList) :: rest)).method =
      List.replicate n 'A' := by
    unfold requestLine
    simp only [Rio_readlineb, cstr_of_not_mem _ hnul]
    have := sscanf3_method_of_token [] (List.replicate n 'A') " / HTTP/1.0\r\n".toList
      (cstr emptyFrame.method) (cstr emptyFrame.uri) (cstr emptyFrame.version)
      (by simp) (by intro h; have := congrArg List.length h; simp at this; omega)
      (by intro c hc; rw [List.eq_of_mem_replicate hc]; decide)
      (by intro c hc; cases hc; decide)
    simpa using this
  have h0 : strcasecmp (requestLine emptyFrame
      ((List.replicate n 'A' ++ " / HTTP/1.0\r\n".toList) :: rest)).method "GET".toList ≠ 0 := by
    intro hz
    have := (strcasecmp_GET_iff _ (requestLine_method_NUL _ _)).mp hz
    rw [hm] at this
    have hl := congrArg List.length this
    simp only [List.length_map, List.length_replicate] at hl
    have hA : (List.replicate n 'A').map Char.toLower = List.replicate n 'a' := by
      rw [List.map_replicate]
      rfl
    rw [hA] at this
    have h3 : n = 3 := hl
    subst h3
    revert this
    decide
  rw [doit_of_other_method MAXLINE MAXBUF _ _ _ h0, hm, clienterror_of_overflow, thenCall_overflow]
  rw [errorPage_length]
  simp only [List.length_replicate]
  have : "501".toList.length + "Not implemented".toList.length +
      "Tiny does not implement this method".toList.length = 53 := by decide
  omega
theorem sscanf3_of_two_tokens (m u tail method0 uri0 version0 : CStr)
    (hm : m ≠ []) (hmt : ∀ c ∈ m, isspace c = false)
    (hu : u ≠ []) (hut : ∀ c ∈ u, isspace c = false)
    (htail : ∀ c, tail.head? = some c → isspace c = true) :
    (sscanf3 (m ++ ' ' :: (u ++ tail)) method0 uri0 version0).method = m ∧
    (sscanf3 (m ++ ' ' :: (u ++ tail)) method0 uri0 version0).uri = u := by
  have hsp : isspace ' ' = true := by decide
  have hin1 : (m ++ ' ' :: (u ++ tail)).dropWhile isspace = m ++ ' ' :: (u ++ tail) := by
    cases m with
    | nil => exact absurd rfl hm
    | cons a m2 =>
      have ha : ¬ isspace a = true := by simp [hmt a (by simp)]
      rw [List.cons_append, List.dropWhile_cons_of_neg ha]
  have hne1 : (m ++ ' ' :: (u ++ tail)).isEmpty = false := by
    cases m with
    | nil => exact absurd rfl hm
    | cons a m2 => rfl
  have htk1 : (m ++ ' ' :: (u ++ tail)).takeWhile (fun c => !isspace c) = m := by
    rw [List.takeWhile_append_of_pos (fun c hc => by simp [hmt c hc])]
    simp only [List.takeWhile_cons, hsp, Bool.not_true, Bool.false_eq_true, if_false,
      List.append_nil]
  have hdr1 : (m ++ ' ' :: (u ++ tail)).dropWhile (fun c => !isspace c) =
      ' ' :: (u ++ tail) := by
    rw [List.dropWhile_append_of_pos (fun c hc => by simp [hmt c hc])]
    simp only [List.dropWhile_cons, hsp, Bool.not_true, Bool.false_eq_true, if_false]
  have hin2 : (' ' :: (u ++ tail)).dropWhile isspace = u ++ tail := by
    cases u with
    | nil => exact absurd rfl hu
    | cons b u2 =>
      have hb : isspace b = false := hut b (by simp)
      simp only [List.dropWhile_cons, hsp, if_true, List.cons_append, hb, Bool.false_eq_true,
        if_false]
  have hne2 : (u ++ tail).isEmpty = false := by
    cases u with
    | nil => exact absurd rfl hu
    | cons b u2 => rfl
  have htk2 : (u ++ tail).takeWhile (fun c => !isspace c) = u := by
    rw [List.takeWhile_append_of_pos (fun c hc => by simp [hut c hc])]
    cases tail with
    | nil => simp
    | cons b tl =>
      have hb : isspace b = true := htail b rfl
      simp only [List.takeWhile_cons, hb, Bool.not_true, Bool.false_eq_true, if_false,
        List.append_nil]
  unfold sscanf3
  simp only [hin1, hne1, htk1, hdr1, hin2, hne2, htk2, Bool.false_eq_true, if_false]
  split <;> exact ⟨rfl, rfl⟩

theorem not_marker_infix_path (n : Nat) : ¬ marker <:+: '/' :: List.replicate n 'a' := by
  intro h
  have hc : 'c' ∈ '/' :: List.replicate n 'a' := h.subset (by decide)
  rcases List.mem_cons.mp hc with h1 | h1
  · exact absurd h1 (by decide)
  · exact absurd (List.eq_of_mem_replicate h1) (by decide)

theorem lastByte_path (before : Char) (n : Nat) (hn : 0 < n) :
    lastByte before ('/' :: List.replicate n 'a') = 'a' := by
  obtain ⟨k, rfl⟩ := Nat.exists_eq_succ_of_ne_zero (Nat.pos_iff_ne_zero.mp hn)
  have : ('/' :: List.replicate (k + 1) 'a').getLast? = some 'a' := by
    rw [List.replicate_succ', ← List.cons_append, List.getLast?_concat]
  simp [lastByte, this]

theorem doit_long_path (MAXLINE MAXBUF n : Nat) (hn : 0 < n) (hbig : MAXBUF ≤ 141 + n) :
    doit MAXLINE MAXBUF emptyFrame
        ["GET".toList ++ ' ' :: ('/' :: List.replicate n 'a' ++ " HTTP/1.0\r\n".toList),
         "\r\n".toList] (fun _ => none) =
      overflow [Event.readline, Event.readline,
        Event.stat ('.' :: '/' :: List.replicate n 'a')] := by
  have hnul : NUL ∉ "GET".toList ++ ' ' :: ('/' :: List.replicate n 'a' ++
      " HTTP/1.0\r\n".toList) := by
    intro h
    rcases List.mem_append.mp h with h1 | h1
    · revert h1
      decide
    · rcases List.mem_cons.mp h1 with h2 | h2
      · exact absurd h2 (by decide)
      · rcases List.mem_append.mp h2 with h3 | h3
        · rcases List.mem_cons.mp h3 with h4 | h4
          · exact absurd h4 (by decide)
          · exact absurd (List.eq_of_mem_replicate h4) (by decide)
        · revert h3
          decide
  have htok := sscanf3_of_two_tokens "GET".toList ('/' :: List.replicate n 'a')
    " HTTP/1.0\r\n".toList (cstr emptyFrame.method) (cstr emptyFrame.uri)
    (cstr emptyFrame.version) (by decide) (by decide) (by simp)
    (by
      intro c hc
      rcases List.mem_cons.mp hc with h1 | h1
      · rw [h1]; decide
      · rw [List.eq_of_mem_replicate h1]; decide)
    (by intro c hc; cases hc; decide)
  have hrl : requestLine emptyFrame
      ["GET".toList ++ ' ' :: ('/' :: List.replicate n 'a' ++ " HTTP/1.0\r\n".toList),
       "\r\n".toList] =
      sscanf3 ("GET".toList ++ ' ' :: ('/' :: List.replicate n 'a' ++ " HTTP/1.0\r\n".toList))
        (cstr emptyFrame.method) (cstr emptyFrame.uri) (cstr emptyFrame.version) := by
    unfold requestLine
    simp only [Rio_readlineb, cstr_of_not_mem _ hnul]
  have h0 : strcasecmp (requestLine emptyFrame
      ["GET".toList ++ ' ' :: ('/' :: List.replicate n 'a' ++ " HTTP/1.0\r\n".toList),
       "\r\n".toList]).method "GET".toList = 0 := by
    rw [hrl, htok.1]
    decide
  have hres : (resolved emptyFrame
      ["GET".toList ++ ' ' :: ('/' :: List.replicate n 'a' ++ " HTTP/1.0\r\n".toList),
       "\r\n".toList]).filename = '.' :: '/' :: List.replicate n 'a' := by
    unfold resolved
    rw [hrl, htok.2, parse_uri_of_no_marker _ _ (not_marker_infix_path n)]
    simp only [lastByte_path _ n hn]
    simp
  have hd := doit_reads emptyFrame
    ("GET".toList ++ ' ' :: ('/' :: List.replicate n 'a' ++ " HTTP/1.0\r\n".toList))
    ["\r\n".toList] ⟨"\r\n".toList, by simp, by decide⟩
  have hl : headerLines ["\r\n".toList] = 1 := by decide
  rw [doit_of_GET MAXLINE MAXBUF _ _ _ h0 (by rw [hd]), hd, hres]
  simp only []
  rw [clienterror_of_overflow, thenCall_overflow, hl]
  · rfl
  · rw [errorPage_length]
    simp only [List.length_cons, List.length_replicate]
    have : "404".toList.length + "Not found".toList.length +
        "Tiny couldn't find this file".toList.length = 40 := by decide
    omega
theorem doit_other_method_call (MAXLINE MAXBUF : Nat) (fr : Frame) (conn : List (List Char))
    (stat : CStr → Option Stat)
    (hm : (requestLine fr conn).method.map Char.toLower ≠ "get".toList) :
    doit MAXLINE MAXBUF fr conn stat =
      thenCall [Event.readline]
        (clienterror MAXLINE MAXBUF (requestLine fr conn).method "501".toList
          "Not implemented".toList "Tiny does not implement this method".toList) :=
  doit_of_other_method MAXLINE MAXBUF fr conn stat (fun hz =>
    hm ((strcasecmp_GET_iff _ (requestLine_method_NUL fr conn)).mp hz))

theorem doit_not_found_call (MAXLINE MAXBUF : Nat) (fr : Frame) (line : List Char)
    (rest : List (List Char)) (stat : CStr → Option Stat)
    (hget : (requestLine fr (line :: rest)).method.map Char.toLower = "get".toList)
    (hend : ∃ l ∈ rest, cstr l = "\r\n".toList)
    (hnone : stat (resolved fr (line :: rest)).filename = none) :
    doit MAXLINE MAXBUF fr (line :: rest) stat =
      thenCall
        (Event.readline :: List.replicate (headerLines rest) Event.readline ++
          [Event.stat (resolved fr (line :: rest)).filename])
        (clienterror MAXLINE MAXBUF (resolved fr (line :: rest)).filename "404".toList
          "Not found".toList "Tiny couldn't find this file".toList) := by
  have h0 : strcasecmp (requestLine fr (line :: rest)).method "GET".toList = 0 :=
    (strcasecmp_GET_iff _ (requestLine_method_NUL fr _)).mpr hget
  have hd := doit_reads fr line rest hend
  rw [doit_of_GET MAXLINE MAXBUF fr _ stat h0 (by rw [hd]), hd, hnone]

/-- C9 at a cause of 8150 bytes, the method of a request line, with arrays of
8192 bytes: the page has 8302 bytes, the `sprintf` calls of `clienterror`
write past the end of `body`, and nothing is written to the connection by a
defined behaviour. -/
theorem clienterror_long_cause :
    (errorPage (List.replicate 8150 'A') "501".toList "Not implemented".toList
      "Tiny does not implement this method".toList).length = 8302 ∧
    clienterror 8192 8192 (List.replicate 8150 'A') "501".toList "Not implemented".toList
        "Tiny does not implement this method".toList =
      { events := [], returns := false, undefined := true } := by
  have hlen : (errorPage (List.replicate 8150 'A') "501".toList "Not implemented".toList
      "Tiny does not implement this method".toList).length = 8302 := by
    rw [errorPage_length, List.length_replicate]
    decide
  exact ⟨hlen, clienterror_of_overflow 8192 8192 _ _ _ _ (by rw [hlen]; decide)⟩

set_option maxRecDepth 100000 in
/-- C4 at two request lines, with arrays of 8192 bytes. A method of 8150 bytes
that is not `GET`: `doit` reads the line and `clienterror` writes past the end
of `body`, no `501` response is sent by a defined behaviour. A line without
any token, when the array `method` still holds `GET` and `uri` holds `/`:
`sscanf` assigns nothing, no `501` is sent and the home page is served. -/
theorem doit_method_long_or_missing :
    doit 8192 8192 emptyFrame
        [List.replicate 8150 'A' ++ " / HTTP/1.0\r\n".toList, "\r\n".toList] (fun _ => none) =
      { events := [Event.readline], returns := false, undefined := true } ∧
    doit 8192 8192
        { buf := [], method := "GET".toList, uri := "/".toList, version := [], before := ' ',
          hdrbuf := [] }
        ["\r\n".toList, "\r\n".toList] sampleStat =
      { events := [Event.readline, Event.readline, Event.stat "./home.html".toList] ++
          serve_static "./home.html".toList 120,
        returns := true } :=
  ⟨doit_long_method 8192 8192 8150 ["\r\n".toList] (fun _ => none) (by decide) (by decide),
   by decide⟩

/-- C5 at the request `GET /aa...a HTTP/1.0` with 8060 letters `a`, with arrays
of 8192 bytes, the file not being there: `doit` reads the request, `stat`
fails, and `clienterror` writes past the end of `body` (the page has 8201
bytes); no `404` response is sent by a defined behaviour. -/
theorem doit_not_found_long_path :
    doit 8192 8192 emptyFrame
        ["GET".toList ++ ' ' :: ('/' :: List.replicate 8060 'a' ++ " HTTP/1.0\r\n".toList),
         "\r\n".toList] (fun _ => none) =
      { events := [Event.readline, Event.readline,
          Event.stat ('.' :: '/' :: List.replicate 8060 'a')],
        returns := false, undefined := true } :=
  doit_long_path 8192 8192 8060 (by decide) (by decide)

/-! ## `serve_static` on sizes within the range of `int` -/

theorem serve_static_in_range (filename : CStr) (size : Int) (h0 : 0 ≤ size)
    (h1 : size < 2 ^ 31) :
    serve_static filename (toInt32 size) =
      [Event.writen (("HTTP/1.0 200 OK\r\nServer: Tiny Web Server\r\nConnection: close\r\n" ++
          "Content-length: ").toList ++ (Nat.repr size.toNat).toList ++
          "\r\nContent-type: ".toList ++ get_filetype filename ++ "\r\n\r\n".toList),
       Event.openRd filename, Event.mmap size.toNat, Event.close,
       Event.writenMapped size.toNat, Event.munmap size.toNat] := by
  obtain ⟨n, rfl⟩ := Int.eq_ofNat_of_zero_le h0
  have hn : n < 2 ^ 31 := by omega
  have hs : toSizeT (n : Int) = n := by
    unfold toSizeT
    omega
  rw [toInt32_of_lt n hn]
  simp only [serve_static, serve_static_header, hs, Int.toNat_ofNat]
  simp [sprintf, sprintfAux, fmtInt_natCast]


end Tiny
